import Mathlib

/-
Verification of the context subsystem of the daydreams repository.

The repository material under verification consists of the documentation of
the context component (example context definitions `myContext` and
`taskManagerContext`, their schema/key/create/render functions, and the
lifecycle description) together with the specification of the surrounding
core (registry, instance store with get-or-create semantics, render
pipeline, persistence adapter).  The example context code is embedded
directly; the store/registry/persistence machinery is not present in the
sources and is modelled from the spec, as marked on each definition.
-/

namespace Daydreams

/-- JavaScript runtime values, as far as the example context code needs them:
`null`, `undefined`, strings, (integer) numbers and booleans. -/
inductive JSValue where
  | null
  | undefined
  | str (s : String)
  | num (n : Int)
  | bool (b : Bool)
deriving DecidableEq, Repr

/-- JavaScript truthiness: `null`, `undefined`, the empty string, `0` and
`false` are falsy; everything else is truthy. -/
def JSValue.truthy : JSValue → Bool
  | .null => false
  | .undefined => false
  | .str s => s != ""
  | .num n => n != 0
  | .bool b => b

/-- The JavaScript `a || b` operator on values: returns `a` when `a` is
truthy, otherwise `b`. -/
def JSValue.orDefault (a b : JSValue) : JSValue :=
  if a.truthy then a else b

/-- The string a value renders to inside a template literal (JavaScript
`String(v)` conversion). -/
def JSValue.toDisplay : JSValue → String
  | .null => "null"
  | .undefined => "undefined"
  | .str s => s
  | .num n => toString n
  | .bool b => toString b

/-- A JavaScript object as an association list of fields. -/
abbrev JSObject := List (String × JSValue)

/-- JavaScript property access `o.k`: the stored value when the field is
present, `undefined` otherwise. -/
def jsGet (o : JSObject) (k : String) : JSValue :=
  match o.find? (fun p => p.1 == k) with
  | some p => p.2
  | none => .undefined

/-! ## The `myContext` example

Embeds the `my-context` definition from the documentation: schema
`{ id: string }`, `key({id}) => id`, `create` returning
`{ items: [], currentItem: null }`, and the template-literal `render`. -/

/-- Memory shape produced by `myContext.create`: an `items` list and a
`currentItem` that starts out `null`. Items are the strings pushed by the
`addItem` action handler. -/
structure MyMemory where
  items : List String
  currentItem : JSValue
deriving DecidableEq, Repr

/-- `myContext.create`: initial memory `{ items: [], currentItem: null }`. -/
def myCreate : MyMemory :=
  { items := [], currentItem := .null }

/-- `myContext.render`: the template literal interpolating
`memory.items.join(", ")` and `memory.currentItem || "None"`. -/
def myRender (memory : MyMemory) : String :=
  "\n      Current Items: " ++ String.intercalate ", " memory.items ++
  "\n      Active Item: " ++ (memory.currentItem.orDefault (.str "None")).toDisplay ++
  "\n    "

/-! ## The `taskManagerContext` example

Embeds the `task-manager` definition from the documentation: schema
`{ projectId: string, userId: string }`, composite key
`` `${userId}:${projectId}` ``, `create` with the
`state.projectName || "Unnamed Project"` fallback, and the markdown
`render`. -/

/-- A task as the task-manager render consumes it: a title and a status. -/
structure Task where
  title : String
  status : String
deriving DecidableEq, Repr

/-- Memory shape produced by `taskManagerContext.create`. `currentTask` is
`none` for the JavaScript `null`; `projectName` keeps the raw JavaScript
value the `||` expression produced. -/
structure TaskMemory where
  tasks : List Task
  completedTasks : List Task
  currentTask : Option Task
  projectName : JSValue
deriving DecidableEq, Repr

/-- `taskManagerContext.key`: `` `${userId}:${projectId}` ``. -/
def taskKey (projectId userId : String) : String :=
  userId ++ ":" ++ projectId

/-- Modelled from the spec: the Schema Validator for the task-manager
schema `z.object({ projectId: string, userId: string })` (the Zod library
itself is not part of the sources). Both declared fields must be strings;
the validated value carries exactly the declared fields, anything else in
the raw bag is stripped. -/
def taskValidate (raw : JSObject) : Except String JSObject :=
  match jsGet raw "projectId", jsGet raw "userId" with
  | .str p, .str u => .ok [("projectId", .str p), ("userId", .str u)]
  | _, _ => .error "projectId and userId must be strings"

/-- `taskManagerContext.create`: initial memory with the
`state.projectName || "Unnamed Project"` fallback, `state` being the
validated argument object. -/
def taskCreate (state : JSObject) : TaskMemory :=
  { tasks := []
    completedTasks := []
    currentTask := none
    projectName := (jsGet state "projectName").orDefault (.str "Unnamed Project") }

/-- One line of the current-task list: `` `- ${task.title} (${task.status})` ``. -/
def taskLine (t : Task) : String :=
  "- " ++ t.title ++ " (" ++ t.status ++ ")"

/-- One line of the completed-task list: `` `- ${task.title}` ``. -/
def completedLine (t : Task) : String :=
  "- " ++ t.title

/-- The JavaScript `s || fallback` on strings: the fallback when `s` is
empty. -/
def strOrDefault (s fallback : String) : String :=
  if s == "" then fallback else s

/-- `taskManagerContext.render`: the markdown template over the joined
task lists, the focus line and the project name. -/
def taskRender (memory : TaskMemory) : String :=
  let taskList := String.intercalate "\n" (memory.tasks.map taskLine)
  let completedList := String.intercalate "\n" (memory.completedTasks.map completedLine)
  let focus :=
    match memory.currentTask with
    | some t => "Working on: " ++ t.title
    | none => "No task in focus"
  "\n# Task Manager: " ++ memory.projectName.toDisplay ++
  "\n\n## Current Tasks:\n" ++ strOrDefault taskList "No active tasks" ++
  "\n\n## Current Focus:\n" ++ focus ++
  "\n\n## Completed Tasks:\n" ++ strOrDefault completedList "No completed tasks" ++
  "\n    "

/-! ## The context core

The registry, instance store, render pipeline and persistence boundary are
described by the documentation's lifecycle section and the spec but their
implementation is not among the sources; the definitions below are marked
`Modelled from the spec:` accordingly. -/

/-- Modelled from the spec: the error taxonomy of the core
(`ValidationError`, `UnknownTypeError`, `DuplicateTypeError`). -/
inductive CtxError where
  | validationError (msg : String)
  | unknownTypeError (typeId : String)
  | duplicateTypeError (typeId : String)
deriving DecidableEq, Repr

/-- Modelled from the spec: a `ContextDefinition`, the static template of a
context type — type identifier, argument validator, key/create/render
functions. `Raw` is the type of raw argument bags, `Args` of validated
arguments and `Memory` of the memory value `createFn` produces. -/
structure ContextDefinition (Raw Args Memory : Type) where
  typeId : String
  validate : Raw → Except String Args
  keyFn : Args → String
  createFn : Args → Memory
  renderFn : Memory → String

variable {Raw Args Memory : Type}

/-- Modelled from the spec: `lookup(typeId)` over the Context Definition
Registry, a table of definitions keyed by type identifier. -/
def lookupDef (reg : List (ContextDefinition Raw Args Memory)) (tid : String) :
    Option (ContextDefinition Raw Args Memory) :=
  reg.find? (fun d => d.typeId == tid)

/-- Modelled from the spec: `register(definition)` fails with
`DuplicateTypeError` when the type identifier is already present and leaves
the registry as it was; otherwise the definition is added. The registry the
caller continues with is the second component. -/
def register (reg : List (ContextDefinition Raw Args Memory))
    (d : ContextDefinition Raw Args Memory) :
    Except CtxError Unit × List (ContextDefinition Raw Args Memory) :=
  if reg.any (fun d0 => d0.typeId == d.typeId) then
    (.error (.duplicateTypeError d.typeId), reg)
  else
    (.ok (), d :: reg)

/-- Modelled from the spec: a live `ContextInstance`. The `id` field is the
allocation number, standing in for the memory reference: two handles denote
the identical live object exactly when their `id`s agree. `typeId` and
`key` together form the `ContextInstanceKey`. -/
structure ContextInstance (Memory : Type) where
  id : Nat
  typeId : String
  key : String
  memory : Memory
deriving DecidableEq, Repr

/-- Modelled from the spec: the Context Instance Store. `instances` is the
table of live instances, `nextId` the next allocation number, and
`creations` the log of `(typeId, key)` pairs for which `createFn` has been
invoked, recording how often creation ran. -/
structure Store (Memory : Type) where
  instances : List (ContextInstance Memory)
  nextId : Nat
  creations : List (String × String)
deriving DecidableEq, Repr

/-- The empty store a process starts from. -/
def Store.empty : Store Memory :=
  { instances := [], nextId := 0, creations := [] }

/-- Lookup of a live instance by its `ContextInstanceKey`. -/
def findInstance (s : Store Memory) (tid k : String) :
    Option (ContextInstance Memory) :=
  s.instances.find? (fun i => i.typeId == tid && i.key == k)

/-- Modelled from the spec: `getOrCreate(typeId, rawArgs)`.
1. resolve the definition (else `UnknownTypeError`);
2. validate the raw arguments (else `ValidationError`);
3. derive the key;
4. return an existing instance for the key unchanged;
5. otherwise invoke `createFn` and insert a fresh instance.
The resulting store is always returned; on an error it is the input store. -/
def getOrCreate (reg : List (ContextDefinition Raw Args Memory)) (tid : String)
    (raw : Raw) (s : Store Memory) :
    Except CtxError (ContextInstance Memory) × Store Memory :=
  match lookupDef reg tid with
  | none => (.error (.unknownTypeError tid), s)
  | some d =>
    match d.validate raw with
    | .error m => (.error (.validationError m), s)
    | .ok args =>
      let k := d.keyFn args
      match findInstance s tid k with
      | some i => (.ok i, s)
      | none =>
        let i : ContextInstance Memory :=
          { id := s.nextId, typeId := tid, key := k, memory := d.createFn args }
        (.ok i, { instances := i :: s.instances, nextId := s.nextId + 1,
                  creations := (tid, k) :: s.creations })

/-- Modelled from the spec: the Render Pipeline's `render(instance)` —
invoke the definition's `renderFn` on the instance's memory and hand the
instance back to the store. -/
def renderInstance (d : ContextDefinition Raw Args Memory)
    (i : ContextInstance Memory) : String × ContextInstance Memory :=
  (d.renderFn i.memory, i)

/-- Modelled from the spec: the state held behind the Persistence Adapter
boundary, a partial map from `(typeId, derivedKey)` pairs to persisted
memory values. -/
def PersistedState (Memory : Type) : Type :=
  String × String → Option Memory

/-- Modelled from the spec: the adapter's `save(key, memory)`. The spec
prescribes no wire format, only that the adapter is a faithful round-trip
of the structural value; a faithful adapter is therefore modelled as the
map update on the persisted state. -/
def saveMemory (k : String × String) (m : Memory) (st : PersistedState Memory) :
    PersistedState Memory :=
  fun k2 => if k2 = k then some m else st k2

/-- Modelled from the spec: the adapter's `load(key)`. -/
def loadMemory (k : String × String) (st : PersistedState Memory) : Option Memory :=
  st k

/-- Modelled from the spec: the `"todo"` context of the spec's test
scenarios — key function `({listId}) => listId`, creation of an
empty-items list. Used as the concrete definition in witnesses. -/
def todoDef : ContextDefinition JSObject String (List String) where
  typeId := "todo"
  validate raw :=
    match jsGet raw "listId" with
    | .str s => .ok s
    | _ => .error "listId must be a string"
  keyFn a := a
  createFn _ := []
  renderFn items := "Items: " ++ String.intercalate ", " items

/-- Modelled from the spec: a batch of `getOrCreate` calls against the
store, one after the other. The spec mandates that the store's
insert-if-absent is atomic, so any interleaving of N concurrent calls is
observationally some sequential order of them; a list of calls covers all
such orders. Returns every caller's result and the final store. -/
def callList (reg : List (ContextDefinition Raw Args Memory)) (tid : String) :
    List Raw → Store Memory →
      List (Except CtxError (ContextInstance Memory)) × Store Memory
  | [], s => ([], s)
  | raw :: rest, s =>
    let p := getOrCreate reg tid raw s
    let q := callList reg tid rest p.2
    (p.1 :: q.1, q.2)

/-- At most one live instance per `ContextInstanceKey`: any two distinct
entries of the instance table differ in type identifier or derived key. -/
def GoodKeys (s : Store Memory) : Prop :=
  s.instances.Pairwise (fun i j => i.typeId ≠ j.typeId ∨ i.key ≠ j.key)

/-- The stores reachable from the empty store by `getOrCreate` calls
against a fixed registry. -/
inductive Reachable (reg : List (ContextDefinition Raw Args Memory)) :
    Store Memory → Prop where
  | init : Reachable reg Store.empty
  | step (s s2 : Store Memory) (tid : String) (raw : Raw)
      (r : Except CtxError (ContextInstance Memory)) (hs : Reachable reg s)
      (h : getOrCreate reg tid raw s = (r, s2)) : Reachable reg s2

/-- A second definition carrying the already-registered type identifier
`"todo"`, used to exercise the duplicate-registration failure. -/
def todoDefDup : ContextDefinition JSObject String (List String) :=
  { todoDef with createFn := fun _ => ["duplicate"] }

/-! ## Helper lemmas -/

/-- Unfolding of `getOrCreate` on a hit: definition found, arguments
valid, an instance already live for the derived key. -/
theorem getOrCreate_found (reg : List (ContextDefinition Raw Args Memory))
    (tid : String) (raw : Raw) (d : ContextDefinition Raw Args Memory) (a : Args)
    (i : ContextInstance Memory) (s : Store Memory)
    (hd : lookupDef reg tid = some d) (hv : d.validate raw = .ok a)
    (hf : findInstance s tid (d.keyFn a) = some i) :
    getOrCreate reg tid raw s = (.ok i, s) := by
  simp [getOrCreate, hd, hv, hf]

/-- Unfolding of `getOrCreate` on a miss: definition found, arguments
valid, no instance live for the derived key, so a fresh one is created. -/
theorem getOrCreate_created (reg : List (ContextDefinition Raw Args Memory))
    (tid : String) (raw : Raw) (d : ContextDefinition Raw Args Memory) (a : Args)
    (s : Store Memory)
    (hd : lookupDef reg tid = some d) (hv : d.validate raw = .ok a)
    (hf : findInstance s tid (d.keyFn a) = none) :
    getOrCreate reg tid raw s =
      (.ok { id := s.nextId, typeId := tid, key := d.keyFn a,
             memory := d.createFn a },
       { instances := { id := s.nextId, typeId := tid, key := d.keyFn a,
                        memory := d.createFn a } :: s.instances,
         nextId := s.nextId + 1,
         creations := (tid, d.keyFn a) :: s.creations }) := by
  simp [getOrCreate, hd, hv, hf]

/-- An instance just inserted at the head of the table is found under its
own key. -/
theorem findInstance_insert (l : List (ContextInstance Memory)) (n : Nat)
    (c : List (String × String)) (i : ContextInstance Memory)
    (tid k : String) (h1 : i.typeId = tid) (h2 : i.key = k) :
    findInstance { instances := i :: l, nextId := n, creations := c } tid k =
      some i := by
  simp [findInstance, List.find?_cons, h1, h2]

/-- Once an instance is live for a key, any batch of calls deriving that
key returns it to every caller and leaves the store untouched. -/
theorem callList_stable (reg : List (ContextDefinition Raw Args Memory))
    (tid : String) (d : ContextDefinition Raw Args Memory) (k : String)
    (s : Store Memory) (i : ContextInstance Memory)
    (hd : lookupDef reg tid = some d) (hf : findInstance s tid k = some i) :
    ∀ raws : List Raw,
      (∀ raw ∈ raws, ∃ a, d.validate raw = .ok a ∧ d.keyFn a = k) →
      callList reg tid raws s = (raws.map (fun _ => .ok i), s) := by
  intro raws
  induction raws with
  | nil => intro _; simp [callList]
  | cons raw rest ih =>
    intro hall
    obtain ⟨a, hva, hka⟩ := hall raw (List.mem_cons_self raw rest)
    have hg : getOrCreate reg tid raw s = (.ok i, s) :=
      getOrCreate_found reg tid raw d a i s hd hva (by rw [hka]; exact hf)
    have hrest := ih (fun r hr => hall r (List.mem_cons_of_mem raw hr))
    simp [callList, hg, hrest]

/-- A `getOrCreate` step preserves key uniqueness of the instance table. -/
theorem goodKeys_step (reg : List (ContextDefinition Raw Args Memory))
    (tid : String) (raw : Raw) (s s2 : Store Memory)
    (r : Except CtxError (ContextInstance Memory))
    (h : getOrCreate reg tid raw s = (r, s2)) (hg : GoodKeys s) : GoodKeys s2 := by
  rcases hd : lookupDef reg tid with _ | d
  · simp [getOrCreate, hd] at h
    obtain ⟨-, h2⟩ := h
    subst h2
    exact hg
  · rcases hv : d.validate raw with m | a
    · simp [getOrCreate, hd, hv] at h
      obtain ⟨-, h2⟩ := h
      subst h2
      exact hg
    · rcases hf : findInstance s tid (d.keyFn a) with _ | j
      · rw [getOrCreate_created reg tid raw d a s hd hv hf] at h
        obtain ⟨-, h2⟩ := Prod.mk.injEq .. ▸ h
        subst h2
        refine List.pairwise_cons.mpr ⟨fun j hj => ?_, hg⟩
        have hnot := List.find?_eq_none.mp hf j hj
        simp only [Bool.and_eq_true, beq_iff_eq, not_and] at hnot
        by_cases he : j.typeId = tid
        · exact Or.inr (fun e => hnot he e.symm)
        · exact Or.inl (fun e => he e.symm)
      · rw [getOrCreate_found reg tid raw d a j s hd hv hf] at h
        obtain ⟨-, h2⟩ := Prod.mk.injEq .. ▸ h
        subst h2
        exact hg

/-- Searching past a head entry whose key differs leaves the lookup with
the rest of the table. -/
theorem findInstance_cons_of_ne (l : List (ContextInstance Memory)) (n : Nat)
    (c : List (String × String)) (i : ContextInstance Memory) (tid k : String)
    (h : i.key ≠ k) :
    findInstance { instances := i :: l, nextId := n, creations := c } tid k =
      findInstance { instances := l, nextId := n, creations := c } tid k := by
  have hp : (i.typeId == tid && i.key == k) = false := by
    simp [h]
  simp [findInstance, List.find?_cons, hp]

/-! ## Claim theorems -/

/-- C8: for every type identifier absent from the registry, `getOrCreate`
fails with `UnknownTypeError` and the store — in particular its creation
log — is exactly the input store, so no definition's `createFn` ran. The
result does not depend on the raw arguments at all, which shows definition
resolution precedes argument validation. -/
theorem unknown_type_fails_before_validation
    (reg : List (ContextDefinition Raw Args Memory)) (tid : String)
    (raw : Raw) (s : Store Memory) (hd : lookupDef reg tid = none) :
    getOrCreate reg tid raw s = (.error (.unknownTypeError tid), s) := by
  simp [getOrCreate, hd]

/-- C8 witness: `getOrCreate("unknown-type", {})` against a registry
holding only the `"todo"` definition. -/
theorem unknown_type_fails_before_validation_witness :
    lookupDef [todoDef] "unknown-type" = none ∧
      getOrCreate [todoDef] "unknown-type" [] Store.empty =
        (.error (.unknownTypeError "unknown-type"), Store.empty) :=
  ⟨rfl, unknown_type_fails_before_validation [todoDef] "unknown-type" [] Store.empty rfl⟩

/-- C4: when the definition's validator rejects the raw arguments,
`getOrCreate` fails with `ValidationError` and the resulting store is
exactly the input store — no new or partial instance is added. -/
theorem validation_failure_leaves_store
    (reg : List (ContextDefinition Raw Args Memory)) (tid : String) (raw : Raw)
    (d : ContextDefinition Raw Args Memory) (m : String) (s : Store Memory)
    (hd : lookupDef reg tid = some d) (hv : d.validate raw = .error m) :
    getOrCreate reg tid raw s = (.error (.validationError m), s) := by
  simp [getOrCreate, hd, hv]

/-- C4 witness: the `"todo"` validator rejects a bag missing `listId`, the
store stays empty. -/
theorem validation_failure_leaves_store_witness :
    todoDef.validate [] = .error "listId must be a string" ∧
      getOrCreate [todoDef] "todo" [] Store.empty =
        (.error (.validationError "listId must be a string"), Store.empty) :=
  ⟨rfl, validation_failure_leaves_store [todoDef] "todo" [] todoDef
    "listId must be a string" Store.empty rfl rfl⟩

/-- C7: registering a definition whose type identifier is already present
fails with `DuplicateTypeError`, the registry is unchanged, and lookup of
that identifier still returns the previously registered definition. -/
theorem register_duplicate_fails
    (reg : List (ContextDefinition Raw Args Memory))
    (d0 dnew : ContextDefinition Raw Args Memory) (tid : String)
    (hd : lookupDef reg tid = some d0) (ht : dnew.typeId = tid) :
    register reg dnew = (.error (.duplicateTypeError tid), reg) ∧
      lookupDef (register reg dnew).2 tid = some d0 := by
  have hd' : reg.find? (fun d1 => d1.typeId == tid) = some d0 := hd
  have hmem := List.mem_of_find?_eq_some hd'
  have hpred := List.find?_some hd'
  have hany : reg.any (fun d1 => d1.typeId == dnew.typeId) = true :=
    List.any_eq_true.mpr ⟨d0, hmem, by rw [ht]; exact hpred⟩
  have hex : ∃ x ∈ reg, x.typeId = tid := ⟨d0, hmem, by simpa using hpred⟩
  constructor
  · simp only [register, List.any_eq_true, beq_iff_eq, ht]
    rw [if_pos hex]
  · simp only [register, List.any_eq_true, beq_iff_eq, ht]
    rw [if_pos hex]
    exact hd

/-- C7 witness: re-registering type `"todo"` with a divergent `createFn`
fails and the original definition stays in place. -/
theorem register_duplicate_fails_witness :
    lookupDef [todoDef] "todo" = some todoDef ∧
      register [todoDef] todoDefDup = (.error (.duplicateTypeError "todo"), [todoDef]) ∧
      lookupDef (register [todoDef] todoDefDup).2 "todo" = some todoDef :=
  ⟨rfl, register_duplicate_fails [todoDef] todoDef todoDefDup "todo" rfl rfl⟩

/-- C5: the render pipeline leaves the instance's memory unchanged, and
rendering the same instance twice with no intervening mutation yields the
same text — `renderFn` is a pure function of the memory in this embedding,
exactly the contract the spec imposes on render implementations. -/
theorem render_preserves_memory (d : ContextDefinition Raw Args Memory)
    (i : ContextInstance Memory) :
    (renderInstance d i).2.memory = i.memory ∧
      (renderInstance d ((renderInstance d i).2)).1 = (renderInstance d i).1 :=
  ⟨rfl, rfl⟩

/-- C6: saving a memory value produced by `createFn` through the
persistence adapter and loading it back yields a value whose render is
identical to the render of the original. -/
theorem save_load_render_roundtrip (d : ContextDefinition Raw Args Memory)
    (a : Args) (k : String × String) (st : PersistedState Memory) :
    (loadMemory k (saveMemory k (d.createFn a) st)).map d.renderFn =
      some (d.renderFn (d.createFn a)) := by
  simp [loadMemory, saveMemory]

/-- C10: every falsy `currentItem` — `null`, `undefined`, the empty
string, `0`, `false` — renders through `currentItem || "None"` to the
string `"None"`, so the rendered view of `myContext` is identical to the
view with no current item at all. -/
theorem falsy_current_item_renders_none (items : List String) (v : JSValue)
    (hv : v.truthy = false) :
    v.orDefault (.str "None") = .str "None" ∧
      myRender { items := items, currentItem := v } =
        myRender { items := items, currentItem := .null } := by
  have h1 : v.orDefault (.str "None") = .str "None" := by
    simp [JSValue.orDefault, hv]
  have h2 : JSValue.orDefault .null (.str "None") = .str "None" := rfl
  exact ⟨h1, by simp [myRender, h1, h2]⟩

/-- C10 witness: the falsy number `0` renders exactly like `null`. -/
theorem falsy_current_item_renders_none_witness :
    JSValue.truthy (.num 0) = false ∧
      (JSValue.orDefault (.num 0) (.str "None") = .str "None" ∧
        myRender { items := ["milk"], currentItem := .num 0 } =
          myRender { items := ["milk"], currentItem := .null }) :=
  ⟨rfl, falsy_current_item_renders_none ["milk"] (.num 0) rfl⟩

/-- C9: whatever raw argument bag the task-manager schema accepts, the
validated arguments carry only `projectId` and `userId`, so
`state.projectName` is `undefined` in `create` and the fallback branch
makes `projectName` equal to `"Unnamed Project"`. -/
theorem task_manager_default_project_name (raw args : JSObject)
    (hv : taskValidate raw = .ok args) :
    (taskCreate args).projectName = .str "Unnamed Project" := by
  unfold taskValidate at hv
  split at hv
  · injection hv with h
    subst h
    rfl
  · exact Except.noConfusion hv

/-- C9 witness: a bag with both declared fields validates, and the created
memory's project name is `"Unnamed Project"`. -/
theorem task_manager_default_project_name_witness :
    taskValidate [("projectId", .str "p1"), ("userId", .str "u1")] =
        .ok [("projectId", .str "p1"), ("userId", .str "u1")] ∧
      (taskCreate [("projectId", .str "p1"), ("userId", .str "u1")]).projectName =
        .str "Unnamed Project" :=
  ⟨rfl, task_manager_default_project_name
    [("projectId", .str "p1"), ("userId", .str "u1")]
    [("projectId", .str "p1"), ("userId", .str "u1")] rfl⟩

/-- C1: two sequential `getOrCreate` calls whose (possibly different) raw
arguments derive the same key return the identical instance, and the store
— creation log included — is untouched by the second call, so `createFn`
does not re-run. -/
theorem getOrCreate_same_key_returns_same_instance
    (reg : List (ContextDefinition Raw Args Memory)) (tid : String)
    (raw1 raw2 : Raw) (d : ContextDefinition Raw Args Memory) (a1 a2 : Args)
    (s s1 : Store Memory) (i : ContextInstance Memory)
    (hd : lookupDef reg tid = some d)
    (hv1 : d.validate raw1 = .ok a1) (hv2 : d.validate raw2 = .ok a2)
    (hk : d.keyFn a2 = d.keyFn a1)
    (h1 : getOrCreate reg tid raw1 s = (.ok i, s1)) :
    getOrCreate reg tid raw2 s1 = (.ok i, s1) := by
  rcases hf : findInstance s tid (d.keyFn a1) with _ | j
  · rw [getOrCreate_created reg tid raw1 d a1 s hd hv1 hf] at h1
    obtain ⟨hi, hs⟩ := Prod.mk.injEq .. ▸ h1
    injection hi with hi
    subst hi hs
    refine getOrCreate_found reg tid raw2 d a2 _ _ hd hv2 ?_
    rw [hk]
    exact findInstance_insert _ _ _ _ _ _ rfl rfl
  · rw [getOrCreate_found reg tid raw1 d a1 j s hd hv1 hf] at h1
    obtain ⟨hi, hs⟩ := Prod.mk.injEq .. ▸ h1
    injection hi with hi
    subst hi hs
    exact getOrCreate_found reg tid raw2 d a2 j s hd hv2 (by rw [hk]; exact hf)

/-- C1 witness: the second call passes a divergent raw bag with an extra
field, still deriving key `"A"`, and gets the first call's instance back
with the store unchanged. -/
theorem getOrCreate_same_key_returns_same_instance_witness :
    getOrCreate [todoDef] "todo" [("listId", JSValue.str "A")] Store.empty =
        (.ok ⟨0, "todo", "A", []⟩, ⟨[⟨0, "todo", "A", []⟩], 1, [("todo", "A")]⟩) ∧
      getOrCreate [todoDef] "todo"
          [("listId", JSValue.str "A"), ("extra", JSValue.str "x")]
          ⟨[⟨0, "todo", "A", []⟩], 1, [("todo", "A")]⟩ =
        (.ok ⟨0, "todo", "A", []⟩, ⟨[⟨0, "todo", "A", []⟩], 1, [("todo", "A")]⟩) :=
  ⟨rfl, getOrCreate_same_key_returns_same_instance [todoDef] "todo"
    [("listId", JSValue.str "A")] [("listId", JSValue.str "A"), ("extra", JSValue.str "x")]
    todoDef "A" "A" Store.empty _ _ rfl rfl rfl rfl rfl⟩

/-- C2: every store reachable by `getOrCreate` calls has at most one live
instance per `ContextInstanceKey`, and two calls deriving distinct unseen
keys return distinct instances, each carrying the memory `createFn`
freshly produced for its own arguments. -/
theorem at_most_one_instance_per_key :
    (∀ (reg : List (ContextDefinition Raw Args Memory)) (s : Store Memory),
        Reachable reg s → GoodKeys s) ∧
    (∀ (reg : List (ContextDefinition Raw Args Memory)) (tid : String)
        (raw1 raw2 : Raw) (d : ContextDefinition Raw Args Memory) (a1 a2 : Args)
        (s s1 s2 : Store Memory) (i1 i2 : ContextInstance Memory),
        lookupDef reg tid = some d →
        d.validate raw1 = .ok a1 → d.validate raw2 = .ok a2 →
        d.keyFn a1 ≠ d.keyFn a2 →
        findInstance s tid (d.keyFn a1) = none →
        findInstance s tid (d.keyFn a2) = none →
        getOrCreate reg tid raw1 s = (.ok i1, s1) →
        getOrCreate reg tid raw2 s1 = (.ok i2, s2) →
        i1 ≠ i2 ∧ i1.memory = d.createFn a1 ∧ i2.memory = d.createFn a2) := by
  constructor
  · intro reg s h
    induction h with
    | init => simp [GoodKeys, Store.empty]
    | step s s2 tid raw r hs hstep ih => exact goodKeys_step reg tid raw s s2 r hstep ih
  · intro reg tid raw1 raw2 d a1 a2 s s1 s2 i1 i2 hd hv1 hv2 hk hf1 hf2 h1 h2
    rw [getOrCreate_created reg tid raw1 d a1 s hd hv1 hf1] at h1
    obtain ⟨hi1, hs1⟩ := Prod.mk.injEq .. ▸ h1
    injection hi1 with hi1
    subst hi1 hs1
    have hf2' : findInstance
        { instances :=
            { id := s.nextId, typeId := tid, key := d.keyFn a1,
              memory := d.createFn a1 } :: s.instances,
          nextId := s.nextId + 1,
          creations := (tid, d.keyFn a1) :: s.creations } tid (d.keyFn a2) = none := by
      rw [findInstance_cons_of_ne s.instances _ _ _ tid (d.keyFn a2) hk]
      exact hf2
    rw [getOrCreate_created reg tid raw2 d a2 _ hd hv2 hf2'] at h2
    obtain ⟨hi2, hs2⟩ := Prod.mk.injEq .. ▸ h2
    injection hi2 with hi2
    subst hi2 hs2
    exact ⟨fun e => hk (congrArg ContextInstance.key e), rfl, rfl⟩

/-- C2 witness: keys `"A"` and `"B"` on the empty store yield the two
distinct instances of the spec's todo scenario, each with a fresh empty
items list. -/
theorem at_most_one_instance_per_key_witness :
    ("A" : String) ≠ "B" ∧
      ((⟨0, "todo", "A", []⟩ : ContextInstance (List String)) ≠ ⟨1, "todo", "B", []⟩ ∧
        (⟨0, "todo", "A", []⟩ : ContextInstance (List String)).memory =
          todoDef.createFn "A" ∧
        (⟨1, "todo", "B", []⟩ : ContextInstance (List String)).memory =
          todoDef.createFn "B") :=
  ⟨(by decide),
    at_most_one_instance_per_key.2 [todoDef] "todo"
      [("listId", JSValue.str "A")] [("listId", JSValue.str "B")] todoDef "A" "B"
      Store.empty ⟨[⟨0, "todo", "A", []⟩], 1, [("todo", "A")]⟩
      ⟨[⟨1, "todo", "B", []⟩, ⟨0, "todo", "A", []⟩], 2, [("todo", "B"), ("todo", "A")]⟩
      ⟨0, "todo", "A", []⟩ ⟨1, "todo", "B", []⟩
      rfl rfl rfl (by decide) rfl rfl rfl rfl⟩

/-- C3: any batch of N ≥ 1 `getOrCreate` calls for one previously unseen
key — the sequentialization of N concurrent callers, the store's
insert-if-absent being atomic — runs `createFn` exactly once for that key
and hands every caller the same single instance. -/
theorem single_flight_creation (reg : List (ContextDefinition Raw Args Memory))
    (tid : String) (d : ContextDefinition Raw Args Memory) (k : String)
    (raws : List Raw) (s : Store Memory)
    (hd : lookupDef reg tid = some d)
    (hall : ∀ raw ∈ raws, ∃ a, d.validate raw = .ok a ∧ d.keyFn a = k)
    (hf : findInstance s tid k = none)
    (hne : raws ≠ []) :
    ∃ i : ContextInstance Memory,
      (callList reg tid raws s).1 = raws.map (fun _ => .ok i) ∧
      List.count (tid, k) (callList reg tid raws s).2.creations =
        List.count (tid, k) s.creations + 1 := by
  cases raws with
  | nil => exact absurd rfl hne
  | cons raw rest =>
    obtain ⟨a, hva, hka⟩ := hall raw (List.mem_cons_self raw rest)
    have hg := getOrCreate_created reg tid raw d a s hd hva (by rw [hka]; exact hf)
    rw [hka] at hg
    have hfind : findInstance
        { instances :=
            { id := s.nextId, typeId := tid, key := k, memory := d.createFn a } ::
              s.instances,
          nextId := s.nextId + 1, creations := (tid, k) :: s.creations } tid k =
        some { id := s.nextId, typeId := tid, key := k, memory := d.createFn a } :=
      findInstance_insert _ _ _ _ _ _ rfl rfl
    have hrest := callList_stable reg tid d k _ _ hd hfind rest
      (fun r hr => hall r (List.mem_cons_of_mem raw hr))
    refine ⟨{ id := s.nextId, typeId := tid, key := k, memory := d.createFn a }, ?_, ?_⟩
    · simp [callList, hg, hrest]
    · simp [callList, hg, hrest, List.count_cons_self]

/-- C3 witness: two calls for the unseen key `"C"` — the spec's concurrent
first-access scenario — create once and return the same instance to both
callers. -/
theorem single_flight_creation_witness :
    findInstance (Store.empty : Store (List String)) "todo" "C" = none ∧
      ∃ i : ContextInstance (List String),
        (callList [todoDef] "todo"
            [[("listId", JSValue.str "C")], [("listId", JSValue.str "C")]]
            Store.empty).1 = [Except.ok i, Except.ok i] ∧
        List.count ("todo", "C")
            (callList [todoDef] "todo"
              [[("listId", JSValue.str "C")], [("listId", JSValue.str "C")]]
              Store.empty).2.creations =
          List.count ("todo", "C") (Store.empty : Store (List String)).creations + 1 :=
  ⟨rfl, single_flight_creation [todoDef] "todo" todoDef "C"
    [[("listId", JSValue.str "C")], [("listId", JSValue.str "C")]] Store.empty rfl
    (fun r hr => by
      rcases List.mem_cons.mp hr with h | h
      · subst h; exact ⟨"C", rfl, rfl⟩
      · rcases List.mem_cons.mp h with h2 | h2
        · subst h2; exact ⟨"C", rfl, rfl⟩
        · exact absurd h2 (List.not_mem_nil r))
    rfl (List.cons_ne_nil _ _)⟩

end Daydreams
